import Mathlib

/-!
Shallow embedding of the export-resolution, build-planning, manifest-synthesis
and dedup-facade logic of `distilt.js` (sastan/distilt).

The manifest's export map is JSON, so a declared condition value is either
`null` or a string; a missing key reads as JavaScript `undefined`.  The
`JSVal` type models exactly these three cases, together with JavaScript
truthiness (`undefined` and `null` are falsy, a string is truthy iff it is
non-empty) and the short-circuiting `||` operator used throughout the source.
-/

namespace Distilt

/-- A JavaScript value as read from a parsed manifest condition map:
`undefined` (missing key), `null` (explicit suppression), or a string. -/
inductive JSVal where
  | undefined
  | null
  | str (s : String)
deriving DecidableEq, Repr

/-- JavaScript truthiness restricted to `JSVal`: only a non-empty string is truthy. -/
def truthy : JSVal → Bool
  | .str s => decide (s ≠ "")
  | _ => false

/-- JavaScript `a || b` on `JSVal`. -/
def jsOr (a b : JSVal) : JSVal := if truthy a then a else b

/-- A condition map (`conditions` in the source): association list from
condition name to declared value.  JSON objects have unique keys. -/
abbrev CondMap := List (String × JSVal)

/-- Property access `conditions[k]`: the declared value, or `undefined`. -/
def getCond (m : CondMap) (k : String) : JSVal :=
  match m.find? (fun kv => kv.1 == k) with
  | some kv => kv.2
  | none => .undefined

/-- The string carried by a truthy `JSVal`, if any.  This is what a truthy
filter on a resolved source keeps. -/
def truthyStr : JSVal → Option String
  | .str s => if s = "" then none else some s
  | _ => none

/-- Suffix test on strings, computed on the character lists. -/
def strEndsWith (s suffix : String) : Bool := suffix.data.isSuffixOf s.data

/-- Prefix test on strings, computed on the character lists. -/
def strStartsWith (s pre : String) : Bool := pre.data.isPrefixOf s.data

/-- `s.slice(n)` on characters. -/
def strDrop (s : String) (n : Nat) : String := String.mk (s.data.drop n)

/-- Drop the last `n` characters. -/
def strDropRight (s : String) (n : Nat) : String :=
  String.mk (s.data.take (s.data.length - n))

/-- The source-extension test `/\.([mc]js|[jt]sx?)$/.test(inputFile)` from
`generateMultiBundles` (distilt.js line 514): the path ends in one of
`.mjs .cjs .js .jsx .ts .tsx`. -/
def hasSourceExtension (s : String) : Bool :=
  strEndsWith s ".mjs" || strEndsWith s ".cjs" || strEndsWith s ".js" ||
    strEndsWith s ".jsx" || strEndsWith s ".ts" || strEndsWith s ".tsx"

/-- `inputFile === null || /\.([mc]js|[jt]sx?)$/.test(inputFile)` applied to a
declared condition value (distilt.js line 514). -/
def condValueOk : JSVal → Bool
  | .null => true
  | .str s => hasSourceExtension s
  | .undefined => false

/-- A declared export-map value: either a bare string or a condition map
(distilt.js lines 502-505). -/
inductive ExportValue where
  | str (s : String)
  | conds (m : CondMap)
deriving DecidableEq, Repr

/-- `if (typeof conditions === 'string') conditions = { default: conditions }`
(distilt.js lines 503-505). -/
def normalizeConditions : ExportValue → CondMap
  | .str s => [("default", .str s)]
  | .conds m => m

/-- The two rejection checks of the entry-point mapping (distilt.js lines
507-518): the entry survives iff one of `default`/`browser`/`node` is truthy
and every declared value is `null` or a source-extension path. -/
def acceptEntry (m : CondMap) : Bool :=
  (truthy (getCond m "default") || truthy (getCond m "browser") ||
      truthy (getCond m "node")) &&
    m.all (fun kv => condValueOk kv.2)

/-- `split('/')` on the character list. -/
def splitOnChar (c : Char) : List Char → List (List Char)
  | [] => [[]]
  | x :: xs =>
    let r := splitOnChar c xs
    if x = c then [] :: r
    else
      match r with
      | [] => [[x]]
      | y :: ys => (x :: y) :: ys

/-- `entryPoint === '.' ? './' + manifest.name.split('/').pop() : entryPoint`
(distilt.js line 520). -/
def outputFileFor (packageName entryPoint : String) : String :=
  if entryPoint == "." then
    "./" ++ String.mk ((splitOnChar '/' packageName.data).getLastD [])
  else entryPoint

/-- One surviving entry of `entryPoints` (distilt.js lines 579-583):
the export subpath, the derived output stem (`outputFile.slice(2)`), and the
normalized condition map. -/
structure EntryPlan where
  entryPoint : String
  outputFile : String
  conditions : CondMap
deriving DecidableEq, Repr

/-- The body of the `entryPoints` mapping for a single export-map entry:
normalize, reject, or build the entry plan (distilt.js lines 502-584). -/
def mkEntryPlan (packageName entryPoint : String) (v : ExportValue) : Option EntryPlan :=
  let conditions := normalizeConditions v
  if acceptEntry conditions then
    let outputFile := outputFileFor packageName entryPoint
    some { entryPoint := entryPoint, outputFile := strDrop outputFile 2, conditions := conditions }
  else none

/-- `entryPoints = Object.entries(publishManifest.exports).map(...).filter(Boolean)`
(distilt.js lines 501-585). -/
def entryPlans (packageName : String) (exports : List (String × ExportValue)) :
    List EntryPlan :=
  exports.filterMap (fun kv => mkEntryPlan packageName kv.1 kv.2)

/-! ### Per-target source-file resolution (distilt.js lines 615-621, 710-715,
804-810, 977-983, 1110-1122) -/

/-- esnext inputs use `conditions.default || conditions.browser || conditions.node`
(distilt.js line 619). -/
def esnextSource (m : CondMap) : JSVal :=
  jsOr (getCond m "default") (jsOr (getCond m "browser") (getCond m "node"))

/-- module inputs use `conditions.default || conditions.browser || conditions.node`
(distilt.js line 713). -/
def moduleSource (m : CondMap) : JSVal :=
  jsOr (getCond m "default") (jsOr (getCond m "browser") (getCond m "node"))

/-- node inputs use `conditions.node || conditions.default` (distilt.js line 808). -/
def nodeSource (m : CondMap) : JSVal :=
  jsOr (getCond m "node") (getCond m "default")

/-- browser inputs use `conditions.browser || conditions.default`
(distilt.js line 981). -/
def browserSource (m : CondMap) : JSVal :=
  jsOr (getCond m "browser") (getCond m "default")

/-- script inputs use `conditions.script || conditions.browser || conditions.default`
(distilt.js lines 1113, 1122). -/
def scriptSource (m : CondMap) : JSVal :=
  jsOr (getCond m "script") (jsOr (getCond m "browser") (getCond m "default"))

/-- The resolved source file of a task, i.e. the truthy value kept by the
`.filter(([_, source]) => source)` step. -/
def esnextSourceFile (m : CondMap) : Option String := truthyStr (esnextSource m)

/-- See `esnextSourceFile`. -/
def moduleSourceFile (m : CondMap) : Option String := truthyStr (moduleSource m)

/-- See `esnextSourceFile`. -/
def nodeSourceFile (m : CondMap) : Option String := truthyStr (nodeSource m)

/-- See `esnextSourceFile`. -/
def browserSourceFile (m : CondMap) : Option String := truthyStr (browserSource m)

/-- See `esnextSourceFile`. -/
def scriptSourceFile (m : CondMap) : Option String := truthyStr (scriptSource m)

/-- Generic fallback resolution: the first condition in `keys` whose declared
value is truthy wins. -/
def resolve (m : CondMap) : List String → Option String
  | [] => none
  | k :: ks =>
    match truthyStr (getCond m k) with
    | some s => some s
    | none => resolve m ks

/-- Modelled from the spec claim (C1): the source file for the esnext target is
resolved target-named condition first (`esnext`), then the more general
platform conditions (`browser`/`node`), then `default`. -/
def specClaimEsnextSourceFile (m : CondMap) : Option String :=
  resolve m ["esnext", "browser", "node", "default"]

theorem truthyStr_jsOr (a b : JSVal) :
    truthyStr (jsOr a b) = (truthyStr a).elim (truthyStr b) (fun s => some s) := by
  cases a with
  | undefined => simp [jsOr, truthy, truthyStr]
  | null => simp [jsOr, truthy, truthyStr]
  | str s => by_cases h : s = "" <;> simp [jsOr, truthy, truthyStr, h]

theorem resolve_cons (m : CondMap) (k : String) (ks : List String) :
    resolve m (k :: ks) = (truthyStr (getCond m k)).elim (resolve m ks) (fun s => some s) := by
  cases h : truthyStr (getCond m k) <;> simp [resolve, h]

theorem elim_none_some (o : Option String) : o.elim none (fun s => some s) = o := by
  cases o <;> rfl

theorem resolve_nil (m : CondMap) : resolve m [] = none := rfl

/-- C1 counterexample: for the esnext target the code resolves `default` first
(`conditions.default || conditions.browser || conditions.node`, distilt.js
line 619) even when a target-named `esnext` condition is declared, so the
claimed target-named-first fallback order does not hold for the esnext kind. -/
theorem esnextSource_counterexample :
    esnextSourceFile [("esnext", JSVal.str "./e.ts"), ("default", JSVal.str "./d.ts")]
        = some "./d.ts" ∧
      specClaimEsnextSourceFile
          [("esnext", JSVal.str "./e.ts"), ("default", JSVal.str "./d.ts")]
        = some "./e.ts" := by
  exact ⟨by decide, by decide⟩

/-- C1 (amended): the per-target source-file fallback orders are fixed, but
they differ by target kind: `node` resolves node → default, `browser` resolves
browser → default, `script` resolves script → browser → default (target-named
condition first), while `esnext` and `module` resolve default → browser → node
and never consult a target-named condition. -/
theorem sourceFile_fallback_orders (m : CondMap) :
    esnextSourceFile m = resolve m ["default", "browser", "node"] ∧
      moduleSourceFile m = resolve m ["default", "browser", "node"] ∧
      nodeSourceFile m = resolve m ["node", "default"] ∧
      browserSourceFile m = resolve m ["browser", "default"] ∧
      scriptSourceFile m = resolve m ["script", "browser", "default"] := by
  refine ⟨?_, ?_, ?_, ?_, ?_⟩ <;>
    simp only [esnextSourceFile, moduleSourceFile, nodeSourceFile, browserSourceFile,
      scriptSourceFile, esnextSource, moduleSource, nodeSource, browserSource,
      scriptSource, truthyStr_jsOr, resolve_cons, resolve_nil, elim_none_some]

/-! ### Manifest synthesis (`publishManifest.exports[entryPoint]`,
distilt.js lines 528-577) -/

/-- The enabled/disabled state of each global target, i.e. the truthiness of
the language-level strings in `targets` (distilt.js lines 118-142).  Field
order follows the source object. -/
structure Targets where
  node : Bool
  module : Bool
  script : Bool
  browser : Bool
  esnext : Bool
deriving DecidableEq, Repr

/-- The `node` block of a manifest export entry; `imp`/`req` model the source
fields `import` (nodejs esm wrapper) and `require` (distilt.js lines 560-563). -/
structure NodePair where
  imp : String
  req : String
deriving DecidableEq, Repr

/-- The `development` condition block added after a scheduled development pass
(distilt.js lines 1277-1319). -/
structure DevBlock where
  esnext : Option String
  module : Option String
  browser : Option String
  script : Option String
  node : Option NodePair
  default : Option String
deriving DecidableEq, Repr

/-- The manifest fragment synthesized for one entry point
(distilt.js lines 528-567). -/
structure PublishExportEntry where
  types : Option String
  development : Option DevBlock
  esnext : Option String
  module : Option String
  browser : Option String
  script : Option String
  node : Option NodePair
  default : Option String
deriving DecidableEq, Repr

/-- `publishManifest.exports[entryPoint] = { types, development, esnext, module,
browser, script, node, default }` followed by the `default` fallback assignment
(distilt.js lines 528-577).  `commonjs` is `type === 'commonjs'`; `outputFile`
still carries its `./` prefix as in the source. -/
def synthEntry (targets : Targets) (hasTsconfig commonjs : Bool) (outputFile : String)
    (m : CondMap) : PublishExportEntry :=
  let cjsExt := if commonjs then ".js" else ".cjs"
  let esnext :=
    if targets.esnext && (getCond m "esnext" != JSVal.null) then
      some (outputFile ++ ".esnext.js")
    else none
  let module :=
    if targets.module then some (outputFile ++ (if commonjs then ".esm" else "") ++ ".js")
    else none
  let browser :=
    if targets.browser && (getCond m "browser" != JSVal.null) then
      if truthy (jsOr (getCond m "browser") (getCond m "default")) then
        some (outputFile ++ ".browser.js")
      else none
    else none
  let script :=
    if targets.script && (getCond m "script" != JSVal.null) then
      if truthy (jsOr (getCond m "script") (jsOr (getCond m "browser") (getCond m "default"))) then
        some (outputFile ++ ".global.js")
      else none
    else none
  let node :=
    if targets.node && (getCond m "node" != JSVal.null) then
      if truthy (jsOr (getCond m "node") (getCond m "default")) then
        some (NodePair.mk (outputFile ++ ".mjs") (outputFile ++ cjsExt))
      else none
    else none
  let dflt :=
    (module.elim
      ((if commonjs then node.map NodePair.req else node.map NodePair.imp).elim
        (esnext.elim script (fun s => some s)) (fun s => some s))
      (fun s => some s))
  { types := if hasTsconfig then some (outputFile ++ ".d.ts") else none
    development := none
    esnext := esnext
    module := module
    browser := browser
    script := script
    node := node
    default := dflt }

/-- The platform-appropriate node field used by the `default` fallback:
`type === 'commonjs' ? node?.require : node?.import` (distilt.js lines 572-574). -/
def platformNodeField (commonjs : Bool) (e : PublishExportEntry) : Option String :=
  if commonjs then e.node.map NodePair.req else e.node.map NodePair.imp

/-- C2 counterexample: with the module, node, esnext and script targets all
disabled and only the browser target enabled, an accepted non-empty condition
set yields a manifest entry with no `default` field, so `default` is not
always present. -/
theorem publishEntry_default_missing :
    acceptEntry [("browser", JSVal.str "./a.ts")] = true ∧
      [("browser", JSVal.str "./a.ts")] ≠ ([] : CondMap) ∧
      (synthEntry ⟨false, false, false, true, false⟩ false false "./a"
          [("browser", JSVal.str "./a.ts")]).default = none ∧
      (synthEntry ⟨false, false, false, true, false⟩ false false "./a"
          [("browser", JSVal.str "./a.ts")]).browser = some "./a.browser.js" := by
  refine ⟨by decide, by decide, by decide, by decide⟩

/-- C2 (amended): the `default` field of a synthesized manifest entry is the
first non-empty of `module`, the platform-appropriate `node` field
(`node.require` when the package type is commonjs, else `node.import`),
`esnext`, `script`, in that fixed precedence; it is therefore present whenever
one of those four fields is present — in particular whenever the `module`
target is globally enabled — but it is absent when all four are absent. -/
theorem synthEntry_default_precedence (targets : Targets) (hasTsconfig commonjs : Bool)
    (outputFile : String) (m : CondMap) :
    (∀ s, (synthEntry targets hasTsconfig commonjs outputFile m).module = some s →
      (synthEntry targets hasTsconfig commonjs outputFile m).default = some s) ∧
      ((synthEntry targets hasTsconfig commonjs outputFile m).module = none →
        ∀ s, platformNodeField commonjs (synthEntry targets hasTsconfig commonjs outputFile m)
            = some s →
          (synthEntry targets hasTsconfig commonjs outputFile m).default = some s) ∧
      ((synthEntry targets hasTsconfig commonjs outputFile m).module = none →
        platformNodeField commonjs (synthEntry targets hasTsconfig commonjs outputFile m)
            = none →
        ∀ s, (synthEntry targets hasTsconfig commonjs outputFile m).esnext = some s →
          (synthEntry targets hasTsconfig commonjs outputFile m).default = some s) ∧
      ((synthEntry targets hasTsconfig commonjs outputFile m).module = none →
        platformNodeField commonjs (synthEntry targets hasTsconfig commonjs outputFile m)
            = none →
        (synthEntry targets hasTsconfig commonjs outputFile m).esnext = none →
        (synthEntry targets hasTsconfig commonjs outputFile m).default
          = (synthEntry targets hasTsconfig commonjs outputFile m).script) ∧
      (targets.module = true →
        ((synthEntry targets hasTsconfig commonjs outputFile m).default).isSome = true) := by
  have hd : (synthEntry targets hasTsconfig commonjs outputFile m).default
      = ((synthEntry targets hasTsconfig commonjs outputFile m).module).elim
          ((platformNodeField commonjs (synthEntry targets hasTsconfig commonjs outputFile m)).elim
            (((synthEntry targets hasTsconfig commonjs outputFile m).esnext).elim
              ((synthEntry targets hasTsconfig commonjs outputFile m).script)
              (fun s => some s))
            (fun s => some s))
          (fun s => some s) := rfl
  refine ⟨?_, ?_, ?_, ?_, ?_⟩
  · intro s h
    rw [hd, h]
    rfl
  · intro h s h2
    rw [hd, h, h2]
    rfl
  · intro h h2 s h3
    rw [hd, h, h2, h3]
    rfl
  · intro h h2 h3
    rw [hd, h, h2, h3]
    rfl
  · intro h
    have hm : (synthEntry targets hasTsconfig commonjs outputFile m).module
        = some (outputFile ++ (if commonjs then ".esm" else "") ++ ".js") := by
      simp [synthEntry, h]
    rw [hd, hm]
    rfl

/-- Witness for `synthEntry_default_precedence` at a concrete entry: with all
targets enabled and a single `default` condition, `default` is the module path. -/
theorem synthEntry_default_precedence_witness :
    (synthEntry ⟨true, true, true, true, true⟩ false false "./pkg"
        [("default", JSVal.str "./i.ts")]).default = some "./pkg.js" :=
  (synthEntry_default_precedence ⟨true, true, true, true, true⟩ false false "./pkg"
      [("default", JSVal.str "./i.ts")]).1 "./pkg.js" (by decide)

/-! ### Rollup `onwarn` handlers (distilt.js lines 636-645, 730-739, 825-834,
998-1008, 1133-1147) -/

/-- The five target kinds of the build matrix. -/
inductive TargetKind where
  | esnext
  | module
  | node
  | browser
  | script
deriving DecidableEq, Repr

/-- A rollup warning as observed by the `onwarn` handlers: its `code` and its
optional `source` (the unresolved specifier). -/
structure Warning where
  code : String
  source : Option String
deriving DecidableEq, Repr

/-- What an `onwarn` handler does with a warning. -/
inductive WarnOutcome where
  | suppressed
  | logged
  | fatal
deriving DecidableEq, Repr

/-- `warning.source?.startsWith('node:')` with optional chaining. -/
def optStartsWithNode : Option String → Bool
  | some s => strStartsWith s "node:"
  | none => false

/-- The `onwarn` of the esnext, module and node tasks (distilt.js lines
636-645, 730-739, 825-834): circular-dependency warnings and unresolved
`node:` imports are silently dropped, everything else is logged. -/
def batchOnwarn (w : Warning) : WarnOutcome :=
  if w.code == "CIRCULAR_DEPENDENCY" ||
      (w.code == "UNRESOLVED_IMPORT" && optStartsWithNode w.source) then
    .suppressed
  else .logged

/-- The `onwarn` of the browser task (distilt.js lines 998-1008): an
unresolved `node:` import throws. -/
def browserOnwarn (w : Warning) : WarnOutcome :=
  if w.code == "CIRCULAR_DEPENDENCY" then .suppressed
  else if w.code == "UNRESOLVED_IMPORT" && optStartsWithNode w.source then .fatal
  else .logged

/-- The `onwarn` of the per-entry script task (distilt.js lines 1133-1147):
an unresolved `node:` import throws. -/
def scriptOnwarn (w : Warning) : WarnOutcome :=
  if w.code == "CIRCULAR_DEPENDENCY" then .suppressed
  else if w.code == "UNRESOLVED_IMPORT" && optStartsWithNode w.source then .fatal
  else .logged

/-- The warning handler each target kind installs. -/
def onwarnFor : TargetKind → Warning → WarnOutcome
  | .esnext => batchOnwarn
  | .module => batchOnwarn
  | .node => batchOnwarn
  | .browser => browserOnwarn
  | .script => scriptOnwarn

/-- C3 counterexample: the browser target also promotes an unresolved
`node:`-rooted import to a hard failure (distilt.js lines 1003-1005), so the
hard failure is not exclusive to the script target. -/
theorem browserOnwarn_counterexample :
    onwarnFor TargetKind.browser ⟨"UNRESOLVED_IMPORT", some "node:fs"⟩
        = WarnOutcome.fatal ∧
      TargetKind.browser ≠ TargetKind.script := by
  exact ⟨by decide, by decide⟩

/-- C3 (amended): an unresolved import rooted at a `node:` specifier is a hard
build failure for both the script target and the browser target, and is
silently suppressed (build continues) for the esnext, module and node targets. -/
theorem unresolvedNodeImport_outcomes (w : Warning)
    (hc : w.code = "UNRESOLVED_IMPORT") (hs : optStartsWithNode w.source = true) :
    onwarnFor TargetKind.script w = WarnOutcome.fatal ∧
      onwarnFor TargetKind.browser w = WarnOutcome.fatal ∧
      onwarnFor TargetKind.esnext w = WarnOutcome.suppressed ∧
      onwarnFor TargetKind.module w = WarnOutcome.suppressed ∧
      onwarnFor TargetKind.node w = WarnOutcome.suppressed := by
  refine ⟨?_, ?_, ?_, ?_, ?_⟩ <;>
    simp [onwarnFor, scriptOnwarn, browserOnwarn, batchOnwarn, hc, hs]

/-- Witness for `unresolvedNodeImport_outcomes` at a concrete warning. -/
theorem unresolvedNodeImport_outcomes_witness :
    onwarnFor TargetKind.script ⟨"UNRESOLVED_IMPORT", some "node:fs"⟩
        = WarnOutcome.fatal ∧
      onwarnFor TargetKind.esnext ⟨"UNRESOLVED_IMPORT", some "node:fs"⟩
        = WarnOutcome.suppressed :=
  ⟨(unresolvedNodeImport_outcomes ⟨"UNRESOLVED_IMPORT", some "node:fs"⟩ rfl (by decide)).1,
    (unresolvedNodeImport_outcomes ⟨"UNRESOLVED_IMPORT", some "node:fs"⟩ rfl (by decide)).2.2.1⟩

/-! ### Build-plan topology (distilt.js lines 607-1269): one multi-entry
rollup per batched target kind, one single-entry rollup per script entry. -/

/-- One compilation unit issued by `generatedBundles`: either a multi-entry
rollup (`input: Object.fromEntries(inputs)`) or a per-entry rollup with a
single input file (`input: inputFile`, plus `inlineDynamicImports`). -/
inductive Job where
  | batch (kind : TargetKind) (inputs : List (String × JSVal))
  | single (kind : TargetKind) (outputFile : String) (input : JSVal)
      (inlineDynamicImports : Bool)
deriving DecidableEq, Repr

/-- The target kind a job compiles. -/
def jobKind : Job → TargetKind
  | .batch k _ => k
  | .single k _ _ _ => k

/-- A job is a single-entry compilation with dynamic imports inlined. -/
def isSingleInline : Job → Bool
  | .single _ _ _ inline => inline
  | .batch _ _ => false

/-- The esnext batch inputs (distilt.js lines 615-621): entries whose `esnext`
condition is not `null`, mapped to their resolved source, truthy sources kept. -/
def esnextInputs (eps : List EntryPlan) : List (String × JSVal) :=
  ((eps.filter (fun e => getCond e.conditions "esnext" != JSVal.null)).map
      (fun e => (e.outputFile, esnextSource e.conditions))).filter
    (fun p => truthy p.2)

/-- The module batch inputs (distilt.js lines 710-715): every entry, mapped to
its resolved source, truthy sources kept. -/
def moduleInputs (eps : List EntryPlan) : List (String × JSVal) :=
  (eps.map (fun e => (e.outputFile, moduleSource e.conditions))).filter
    (fun p => truthy p.2)

/-- The node batch inputs (distilt.js lines 804-810). -/
def nodeInputs (eps : List EntryPlan) : List (String × JSVal) :=
  ((eps.filter (fun e => getCond e.conditions "node" != JSVal.null)).map
      (fun e => (e.outputFile, nodeSource e.conditions))).filter
    (fun p => truthy p.2)

/-- The browser batch inputs (distilt.js lines 977-983). -/
def browserInputs (eps : List EntryPlan) : List (String × JSVal) :=
  ((eps.filter (fun e => getCond e.conditions "browser" != JSVal.null)).map
      (fun e => (e.outputFile, browserSource e.conditions))).filter
    (fun p => truthy p.2)

/-- The script filter `conditions.script !== null && (conditions.script ||
conditions.browser || conditions.default)` (distilt.js lines 1110-1114). -/
def scriptSurvives (e : EntryPlan) : Bool :=
  (getCond e.conditions "script" != JSVal.null) && truthy (scriptSource e.conditions)

/-- The entries that get their own per-entry script rollup. -/
def scriptEntries (eps : List EntryPlan) : List EntryPlan :=
  eps.filter scriptSurvives

/-- The esnext task: one multi-entry rollup over all surviving inputs, or
nothing when the target is disabled or no input survives (distilt.js lines
612-627). -/
def esnextJobs (targets : Targets) (eps : List EntryPlan) : List Job :=
  if targets.esnext && !(esnextInputs eps).isEmpty then
    [Job.batch TargetKind.esnext (esnextInputs eps)]
  else []

/-- The module task (distilt.js lines 707-721). -/
def moduleJobs (targets : Targets) (eps : List EntryPlan) : List Job :=
  if targets.module && !(moduleInputs eps).isEmpty then
    [Job.batch TargetKind.module (moduleInputs eps)]
  else []

/-- The node task (distilt.js lines 801-816). -/
def nodeJobs (targets : Targets) (eps : List EntryPlan) : List Job :=
  if targets.node && !(nodeInputs eps).isEmpty then
    [Job.batch TargetKind.node (nodeInputs eps)]
  else []

/-- The browser task (distilt.js lines 974-989). -/
def browserJobs (targets : Targets) (eps : List EntryPlan) : List Job :=
  if targets.browser && !(browserInputs eps).isEmpty then
    [Job.batch TargetKind.browser (browserInputs eps)]
  else []

/-- The script task: one rollup per surviving entry, each with a single input
file and `inlineDynamicImports: true` (distilt.js lines 1107-1263). -/
def scriptJobs (targets : Targets) (eps : List EntryPlan) : List Job :=
  if targets.script && !(scriptEntries eps).isEmpty then
    (scriptEntries eps).map
      (fun e => Job.single TargetKind.script e.outputFile (scriptSource e.conditions) true)
  else []

/-- All compilation units of one `generatedBundles` pass. -/
def buildJobs (targets : Targets) (eps : List EntryPlan) : List Job :=
  esnextJobs targets eps ++ moduleJobs targets eps ++ nodeJobs targets eps ++
    browserJobs targets eps ++ scriptJobs targets eps

theorem filter_jobKind_const (l : List Job) (k k' : TargetKind)
    (h : ∀ j ∈ l, jobKind j = k) :
    l.filter (fun j => jobKind j == k') = if k' = k then l else [] := by
  induction l with
  | nil => simp
  | cons a t ih =>
    have ha : jobKind a = k := h a (by simp)
    have ht : ∀ j ∈ t, jobKind j = k := fun j hj => h j (by simp [hj])
    by_cases hk : k' = k
    · subst hk
      simp [List.filter_cons, ha, ih ht]
    · have hne : (k == k') = false := beq_eq_false_iff_ne.mpr (fun hkk => hk hkk.symm)
      simp [List.filter_cons, ha, hne, ih ht, hk]

theorem esnextJobs_kind (targets : Targets) (eps : List EntryPlan) :
    ∀ j ∈ esnextJobs targets eps, jobKind j = TargetKind.esnext := by
  unfold esnextJobs
  split <;> simp [jobKind]

theorem moduleJobs_kind (targets : Targets) (eps : List EntryPlan) :
    ∀ j ∈ moduleJobs targets eps, jobKind j = TargetKind.module := by
  unfold moduleJobs
  split <;> simp [jobKind]

theorem nodeJobs_kind (targets : Targets) (eps : List EntryPlan) :
    ∀ j ∈ nodeJobs targets eps, jobKind j = TargetKind.node := by
  unfold nodeJobs
  split <;> simp [jobKind]

theorem browserJobs_kind (targets : Targets) (eps : List EntryPlan) :
    ∀ j ∈ browserJobs targets eps, jobKind j = TargetKind.browser := by
  unfold browserJobs
  split <;> simp [jobKind]

theorem scriptJobs_kind (targets : Targets) (eps : List EntryPlan) :
    ∀ j ∈ scriptJobs targets eps, jobKind j = TargetKind.script := by
  unfold scriptJobs
  split
  · intro j hj
    rcases List.mem_map.mp hj with ⟨e, _, rfl⟩
    rfl
  · simp

theorem buildJobs_filter_kind (targets : Targets) (eps : List EntryPlan)
    (k : TargetKind) :
    (buildJobs targets eps).filter (fun j => jobKind j == k)
      = (if k = TargetKind.esnext then esnextJobs targets eps else []) ++
        (if k = TargetKind.module then moduleJobs targets eps else []) ++
        (if k = TargetKind.node then nodeJobs targets eps else []) ++
        (if k = TargetKind.browser then browserJobs targets eps else []) ++
        (if k = TargetKind.script then scriptJobs targets eps else []) := by
  simp only [buildJobs, List.filter_append,
    filter_jobKind_const _ _ _ (esnextJobs_kind targets eps),
    filter_jobKind_const _ _ _ (moduleJobs_kind targets eps),
    filter_jobKind_const _ _ _ (nodeJobs_kind targets eps),
    filter_jobKind_const _ _ _ (browserJobs_kind targets eps),
    filter_jobKind_const _ _ _ (scriptJobs_kind targets eps)]

/-- C4: per pass, the esnext, module and node tasks are each a single
multi-entry compilation over all surviving entries of that kind (or absent),
while the script task issues one single-entry compilation per surviving entry
point with `inlineDynamicImports` on, so script bundles are self-contained. -/
theorem buildJobs_topology (targets : Targets) (eps : List EntryPlan) :
    (buildJobs targets eps).filter (fun j => jobKind j == TargetKind.esnext)
        = (if targets.esnext && !(esnextInputs eps).isEmpty then
            [Job.batch TargetKind.esnext (esnextInputs eps)]
          else []) ∧
      (buildJobs targets eps).filter (fun j => jobKind j == TargetKind.module)
        = (if targets.module && !(moduleInputs eps).isEmpty then
            [Job.batch TargetKind.module (moduleInputs eps)]
          else []) ∧
      (buildJobs targets eps).filter (fun j => jobKind j == TargetKind.node)
        = (if targets.node && !(nodeInputs eps).isEmpty then
            [Job.batch TargetKind.node (nodeInputs eps)]
          else []) ∧
      (buildJobs targets eps).filter (fun j => jobKind j == TargetKind.script)
        = (if targets.script then
            (scriptEntries eps).map
              (fun e =>
                Job.single TargetKind.script e.outputFile (scriptSource e.conditions) true)
          else []) ∧
      ((buildJobs targets eps).filter
          (fun j => jobKind j == TargetKind.script)).all isSingleInline = true := by
  have hs : (buildJobs targets eps).filter (fun j => jobKind j == TargetKind.script)
      = (if targets.script then
          (scriptEntries eps).map
            (fun e =>
              Job.single TargetKind.script e.outputFile (scriptSource e.conditions) true)
        else []) := by
    rw [buildJobs_filter_kind]
    simp only [if_pos rfl, if_neg (by decide : TargetKind.script ≠ TargetKind.esnext),
      if_neg (by decide : TargetKind.script ≠ TargetKind.module),
      if_neg (by decide : TargetKind.script ≠ TargetKind.node),
      if_neg (by decide : TargetKind.script ≠ TargetKind.browser),
      List.nil_append, List.append_nil]
    unfold scriptJobs
    rcases hts : targets.script with _ | _
    · simp
    · rcases hsc : scriptEntries eps with _ | ⟨a, l⟩ <;> simp [hsc]
  refine ⟨?_, ?_, ?_, hs, ?_⟩
  · rw [buildJobs_filter_kind]
    simp only [if_pos rfl, if_neg (by decide : TargetKind.esnext ≠ TargetKind.module),
      if_neg (by decide : TargetKind.esnext ≠ TargetKind.node),
      if_neg (by decide : TargetKind.esnext ≠ TargetKind.browser),
      if_neg (by decide : TargetKind.esnext ≠ TargetKind.script),
      List.nil_append, List.append_nil]
    rfl
  · rw [buildJobs_filter_kind]
    simp only [if_pos rfl, if_neg (by decide : TargetKind.module ≠ TargetKind.esnext),
      if_neg (by decide : TargetKind.module ≠ TargetKind.node),
      if_neg (by decide : TargetKind.module ≠ TargetKind.browser),
      if_neg (by decide : TargetKind.module ≠ TargetKind.script),
      List.nil_append, List.append_nil]
    rfl
  · rw [buildJobs_filter_kind]
    simp only [if_pos rfl, if_neg (by decide : TargetKind.node ≠ TargetKind.esnext),
      if_neg (by decide : TargetKind.node ≠ TargetKind.module),
      if_neg (by decide : TargetKind.node ≠ TargetKind.browser),
      if_neg (by decide : TargetKind.node ≠ TargetKind.script),
      List.nil_append, List.append_nil]
    rfl
  · rw [hs]
    split <;> simp [isSingleInline]

/-! ### Entry acceptance (C5) and per-entry script suppression (C6) -/

theorem condValueOk_eq_false (v : JSVal) :
    condValueOk v = false ↔
      v ≠ JSVal.null ∧ ∀ s, v = JSVal.str s → hasSourceExtension s = false := by
  cases v <;> simp [condValueOk]

/-- C5: a bare string export value is normalized to a default-only condition
map, and an entry is rejected (and omitted from the planner output) exactly
when none of `default`/`browser`/`node` holds a truthy source, or some
declared condition value is neither `null` nor a path ending in one of
`.ts .tsx .js .jsx .mjs .cjs`. -/
theorem entryNormalization_and_rejection :
    (∀ s : String, normalizeConditions (ExportValue.str s) = [("default", JSVal.str s)]) ∧
      (∀ m : CondMap, acceptEntry m = false ↔
        ((truthy (getCond m "default") || truthy (getCond m "browser") ||
            truthy (getCond m "node")) = false ∨
          ∃ kv, kv ∈ m ∧ kv.2 ≠ JSVal.null ∧
            ∀ s, kv.2 = JSVal.str s → hasSourceExtension s = false)) ∧
      (∀ packageName entryPoint v, acceptEntry (normalizeConditions v) = false →
        mkEntryPlan packageName entryPoint v = none) := by
  refine ⟨fun s => rfl, fun m => ?_, fun packageName entryPoint v h => ?_⟩
  · rw [show (acceptEntry m = false) ↔ ¬(acceptEntry m = true) by simp]
    rw [acceptEntry, Bool.and_eq_true, List.all_eq_true]
    constructor
    · intro h
      by_cases hA : (truthy (getCond m "default") || truthy (getCond m "browser") ||
          truthy (getCond m "node")) = true
      · right
        have hno : ¬ ∀ kv ∈ m, condValueOk kv.2 = true := fun hall => h ⟨hA, hall⟩
        push_neg at hno
        rcases hno with ⟨kv, hmem, hkv⟩
        exact ⟨kv, hmem, (condValueOk_eq_false kv.2).mp (by simpa using hkv)⟩
      · left
        simpa using hA
    · rintro (hA | ⟨kv, hmem, hkv⟩) ⟨h1, h2⟩
      · rw [hA] at h1
        exact Bool.false_ne_true h1
      · have hkv2 := h2 kv hmem
        rw [(condValueOk_eq_false kv.2).mpr hkv] at hkv2
        exact Bool.false_ne_true hkv2
  · simp [mkEntryPlan, h]

/-- Witness for `entryNormalization_and_rejection`: the non-code subpath value
`./package.json` is rejected and dropped from the planner output. -/
theorem entryNormalization_and_rejection_witness :
    mkEntryPlan "pkg" "./package.json" (ExportValue.str "./package.json") = none := by
  apply entryNormalization_and_rejection.2.2
  refine (entryNormalization_and_rejection.2.1 _).mpr (Or.inr ?_)
  refine ⟨("default", JSVal.str "./package.json"), by decide, by decide, ?_⟩
  intro s hs
  injection hs with h
  subst h
  decide

/-- C6: an explicit `script: null` condition suppresses the script target for
that one entry even when the script target is globally enabled: the entry is
excluded from the per-entry script compilations and its synthesized manifest
fragment has no `script` field. -/
theorem scriptNull_suppression (targets : Targets) (hasTsconfig commonjs : Bool)
    (outputFile : String) (e : EntryPlan)
    (h : getCond e.conditions "script" = JSVal.null) :
    (∀ eps : List EntryPlan, e ∉ scriptEntries eps) ∧
      (synthEntry targets hasTsconfig commonjs outputFile e.conditions).script = none := by
  have hs : scriptSurvives e = false := by simp [scriptSurvives, h]
  constructor
  · intro eps hmem
    have hkeep := (List.mem_filter.mp hmem).2
    rw [hs] at hkeep
    exact Bool.false_ne_true hkeep
  · simp [synthEntry, h]

/-- Witness for `scriptNull_suppression` at the spec's own example entry
`{default: "./a.ts", script: null}` with every target globally enabled. -/
theorem scriptNull_suppression_witness :
    (synthEntry ⟨true, true, true, true, true⟩ true false "./web"
        [("default", JSVal.str "./a.ts"), ("script", JSVal.null)]).script = none :=
  (scriptNull_suppression ⟨true, true, true, true, true⟩ true false "./web"
    ⟨"./web", "web", [("default", JSVal.str "./a.ts"), ("script", JSVal.null)]⟩
    (by decide)).2

/-! ### Dual-mode (development) latch and second pass (distilt.js lines
167, 200-203, 607-608, 1271-1323) -/

theorem strApp_assoc (a b c : String) : (a ++ b) ++ c = a ++ (b ++ c) := by
  rcases a with ⟨da⟩
  rcases b with ⟨db⟩
  rcases c with ⟨dc⟩
  exact congrArg String.mk (List.append_assoc da db dc)

theorem strApp_empty (a : String) : a ++ "" = a := by
  rcases a with ⟨da⟩
  exact congrArg String.mk (List.append_nil da)

theorem strEmpty_append (a : String) : "" ++ a = a := by
  rcases a with ⟨da⟩
  rfl

/-- The characters matched by the regex class `\s` that can occur in source
text (space, tab, newline, carriage return, vertical tab, form feed). -/
def wsChar (c : Char) : Bool :=
  c = ' ' || c = '\t' || c = '\n' || c = '\r' || c = '\x0b' || c = '\x0c'

/-- Consume the remaining `\s*` after the first whitespace character. -/
def dropWs : List Char → List Char
  | c :: cs => if wsChar c then dropWs cs else c :: cs
  | [] => []

/-- Match of the regex `/from\s+(["'])distilt\/env\1/` at the head of the
character list: `from`, one or more whitespace characters, a quote, the
specifier `distilt/env`, and the same quote. -/
def envImportAt : List Char → Bool
  | 'f' :: 'r' :: 'o' :: 'm' :: c :: cs =>
    if wsChar c then
      match dropWs cs with
      | q :: rest => (q = '\x22' || q = '\x27') && ("distilt/env".data ++ [q]).isPrefixOf rest
      | [] => false
    else false
  | _ => false

/-- Unanchored regex test: the pattern matches at some position. -/
def anyTail (p : List Char → Bool) : List Char → Bool
  | [] => p []
  | c :: cs => p (c :: cs) || anyTail p cs

/-- `/from\s+(["'])distilt\/env\1/.test(code)` from the swc transform hook
(distilt.js line 202). -/
def detectsEnvImport (code : String) : Bool := anyTail envImportAt code.data

/-- The `needsDevelopmentBuild` latch (distilt.js lines 167, 200-203): starting
from `init`, each transformed file can only switch it on, folded over the
files of a run in compilation order. -/
def latchAfter (init : Bool) (codes : List String) : Bool :=
  codes.foldl (fun b code => b || detectsEnvImport code) init

/-- The two bundle-generation modes (distilt.js line 607). -/
inductive Mode where
  | production
  | development
deriving DecidableEq, Repr

/-- `const suffix = mode === 'development' ? '.dev' : ''` (distilt.js line 608). -/
def modeSuffix : Mode → String
  | .development => ".dev"
  | .production => ""

/-- The stem inserted between the entry name and the mode suffix in
`entryFileNames` per target kind (distilt.js lines 684, 778, 914, 1082, 1229). -/
def targetPre : TargetKind → Bool → String
  | .esnext, _ => ".esnext"
  | .module, commonjs => if commonjs then ".esm" else ""
  | .node, _ => ""
  | .browser, _ => ".browser"
  | .script, _ => ".global"

/-- The extension closing `entryFileNames` per target kind; node uses `cjsExt`. -/
def targetExt : TargetKind → Bool → String
  | .node, commonjs => if commonjs then ".js" else ".cjs"
  | _, _ => ".js"

/-- The entry file name written by a pass:
`[name]<stem><suffix><ext>` (distilt.js lines 684, 778, 914, 1082, 1229). -/
def passEntryFileName (kind : TargetKind) (commonjs : Bool) (mode : Mode)
    (name : String) : String :=
  name ++ targetPre kind commonjs ++ modeSuffix mode ++ targetExt kind commonjs

/-- `path.replace(/\.([cm]?js)$/, '.dev.$1')` (distilt.js lines 1279-1318). -/
def devName (s : String) : String :=
  if strEndsWith s ".cjs" then strDropRight s 4 ++ ".dev.cjs"
  else if strEndsWith s ".mjs" then strDropRight s 4 ++ ".dev.mjs"
  else if strEndsWith s ".js" then strDropRight s 3 ++ ".dev.js"
  else s

/-- `publishManifest.exports[entryPoint].development = {...}` (distilt.js lines
1277-1319): every field of the production fragment with the `.dev` infix. -/
def developmentBlock (e : PublishExportEntry) : DevBlock :=
  { esnext := e.esnext.map devName
    module := e.module.map devName
    browser := e.browser.map devName
    script := e.script.map devName
    node := e.node.map (fun n => ⟨devName n.imp, devName n.req⟩)
    default := e.default.map devName }

/-- The post-production scheduling (distilt.js lines 1271-1323): when the
latch is set after the production pass, every entry's manifest fragment gains
a `development` block and a development pass of the batched targets runs;
otherwise only the production pass runs. -/
def schedulePasses (latch : Bool) (entries : List (String × PublishExportEntry)) :
    List Mode × List (String × PublishExportEntry) :=
  if latch then
    ([Mode.production, Mode.development],
      entries.map (fun kv => (kv.1, { kv.2 with development := some (developmentBlock kv.2) })))
  else ([Mode.production], entries)

theorem latchAfter_true (codes : List String) : latchAfter true codes = true := by
  induction codes with
  | nil => rfl
  | cons c cs ih => simpa [latchAfter] using ih

/-- C7: the dual-mode detection flag is a one-way latch — once set it stays
set for the rest of the run — and exactly when it is set after the production
pass, a development pass is scheduled, every entry's manifest fragment gains a
`development` block, and the development pass inserts the `.dev` infix into
every batched target's entry file names. -/
theorem developmentLatch_and_secondPass :
    (∀ codes : List String, latchAfter true codes = true) ∧
      (∀ (init : Bool) (codes more : List String), latchAfter init codes = true →
        latchAfter init (codes ++ more) = true) ∧
      (∀ entries, schedulePasses false entries = ([Mode.production], entries)) ∧
      (∀ entries, (schedulePasses true entries).1 = [Mode.production, Mode.development] ∧
        ∀ kv ∈ (schedulePasses true entries).2, (kv.2).development.isSome = true) ∧
      (∀ kind commonjs name, passEntryFileName kind commonjs Mode.development name
        = name ++ targetPre kind commonjs ++ ".dev" ++ targetExt kind commonjs) := by
  refine ⟨latchAfter_true, ?_, ?_, ?_, ?_⟩
  · intro init codes more h
    have happ : latchAfter init (codes ++ more) = latchAfter (latchAfter init codes) more :=
      List.foldl_append _ _ _ _
    rw [happ, h]
    exact latchAfter_true more
  · intro entries
    rfl
  · intro entries
    refine ⟨rfl, ?_⟩
    intro kv hkv
    simp only [schedulePasses, if_pos rfl] at hkv
    rcases List.mem_map.mp hkv with ⟨kv0, _, rfl⟩
    rfl
  · intro kind commonjs name
    rfl

/-- Witness for `developmentLatch_and_secondPass`: a file importing
`distilt/env` trips the latch and it stays set over later files. -/
theorem developmentLatch_and_secondPass_witness :
    latchAfter false (["from \x22distilt/env\x22"] ++ ["const x = 1"]) = true :=
  developmentLatch_and_secondPass.2.1 false ["from \x22distilt/env\x22"] ["const x = 1"]
    (by decide)

/-! ### Dedup facade generation (`createFacade`, distilt.js lines 1331-1358) -/

/-- `JSON.stringify` of a module specifier; the relative paths built by
`createFacade` and the node wrapper contain no characters that JSON escapes,
so stringification just wraps the path in double quotes. -/
def quoteJson (s : String) : String := "\x22" ++ s ++ "\x22"

/-- The statically parsed shape of the canonical artifact, as returned by the
module lexer in `createFacade` (distilt.js line 1343): the names (`n`) of the
static exports, and the lexer's facade flag (set when the module consists only
of import/re-export statements, i.e. it has wildcard re-exports and no own
code). -/
structure ParseResult where
  exports : List String
  facade : Bool
deriving DecidableEq, Repr

/-- `Array.prototype.join('\n')` over the emitted facade lines. -/
def joinLines : List String → String
  | [] => ""
  | [l] => l
  | l :: ls => l ++ "\n" ++ joinLines ls

/-- The facade content written over the duplicate file (distilt.js lines
1338-1354).  For CJS a single re-export assignment; for ESM the
`export * from` line when the facade flag is set or a truthy non-default
export name exists, the default re-export line when a `default` export
exists, and — since both candidate lines are non-empty strings — the
side-effect `import` fallback of `.join('\n') || ...` exactly when no line
was emitted. -/
def createFacadeContent (isCJS : Bool) (relative : String) (p : ParseResult) : String :=
  if isCJS then "module.exports = require(" ++ quoteJson relative ++ ");"
  else
    let lines :=
      ([if p.facade || p.exports.any (fun n => n != "" && n != "default") then
          some ("export * from " ++ quoteJson relative ++ ";")
        else none,
        if p.exports.any (fun n => n == "default") then
          some ("export \x7b default \x7d from " ++ quoteJson relative ++ ";")
        else none]).filterMap id
    match lines with
    | [] => "import " ++ quoteJson relative ++ ";"
    | l :: ls => joinLines (l :: ls)

/-- C8: a CJS facade is a single `module.exports = require(...)` re-export
assignment; an ESM facade starts with `export * from` the canonical file when
that file has wildcard re-exports (lexer facade flag) or a named non-default
binding, ends with the default re-export line when a default export exists,
and collapses to a single side-effect-only import when the canonical file has
zero exports. -/
theorem createFacade_content (relative : String) (p : ParseResult) :
    (createFacadeContent true relative p
        = "module.exports = require(" ++ quoteJson relative ++ ");") ∧
      ((p.facade || p.exports.any (fun n => n != "" && n != "default")) = true →
        ∃ rest, createFacadeContent false relative p
          = ("export * from " ++ quoteJson relative ++ ";") ++ rest) ∧
      (p.exports.any (fun n => n == "default") = true →
        ∃ pre, createFacadeContent false relative p
          = pre ++ ("export \x7b default \x7d from " ++ quoteJson relative ++ ";")) ∧
      (p.exports = [] → p.facade = false →
        createFacadeContent false relative p = "import " ++ quoteJson relative ++ ";") := by
  refine ⟨rfl, ?_, ?_, ?_⟩
  · intro hA
    cases hB : p.exports.any (fun n => n == "default") with
    | true =>
      have hred : createFacadeContent false relative p
          = (("export * from " ++ quoteJson relative ++ ";") ++ "\n") ++
              ("export \x7b default \x7d from " ++ quoteJson relative ++ ";") := by
        unfold createFacadeContent
        rw [hA, hB]
        rfl
      exact ⟨_, hred.trans (strApp_assoc _ _ _)⟩
    | false =>
      have hred : createFacadeContent false relative p
          = "export * from " ++ quoteJson relative ++ ";" := by
        unfold createFacadeContent
        rw [hA, hB]
        rfl
      exact ⟨"", hred.trans (strApp_empty _).symm⟩
  · intro hB
    cases hA : (p.facade || p.exports.any (fun n => n != "" && n != "default")) with
    | true =>
      have hred : createFacadeContent false relative p
          = (("export * from " ++ quoteJson relative ++ ";") ++ "\n") ++
              ("export \x7b default \x7d from " ++ quoteJson relative ++ ";") := by
        unfold createFacadeContent
        rw [hA, hB]
        rfl
      exact ⟨("export * from " ++ quoteJson relative ++ ";") ++ "\n", hred⟩
    | false =>
      have hred : createFacadeContent false relative p
          = "export \x7b default \x7d from " ++ quoteJson relative ++ ";" := by
        unfold createFacadeContent
        rw [hA, hB]
        rfl
      exact ⟨"", hred.trans (strEmpty_append _).symm⟩
  · intro hexp hfac
    have hA : (p.facade || p.exports.any (fun n => n != "" && n != "default")) = false := by
      rw [hexp, hfac]
      rfl
    have hB : (p.exports.any (fun n => n == "default")) = false := by
      rw [hexp]
      rfl
    unfold createFacadeContent
    rw [hA, hB]
    rfl

/-- Witness for `createFacade_content`: a canonical file with no exports and
no facade flag collapses the duplicate into a side-effect-only import. -/
theorem createFacade_content_witness :
    createFacadeContent false "./x.js" ⟨[], false⟩
      = "import " ++ quoteJson "./x.js" ++ ";" :=
  (createFacade_content "./x.js" ⟨[], false⟩).2.2.2 rfl rfl

/-! ### The published exports map (distilt.js lines 370-385) -/

/-- Object-spread override `{...m, k: v}` on an association list with unique
keys: replace the value of `k` in place, or append the pair. -/
def setKey : List (String × ExportValue) → String → ExportValue →
    List (String × ExportValue)
  | [], k, v => [(k, v)]
  | kv :: rest, k, v => if kv.1 == k then (k, v) :: rest else kv :: setKey rest k v

/-- Lookup in the published exports object. -/
def lookupEV (m : List (String × ExportValue)) (k : String) : Option ExportValue :=
  (m.find? (fun kv => kv.1 == k)).map (fun kv => kv.2)

/-- `publishManifest.exports` (distilt.js lines 370-385): a declared exports
map is augmented with the `./package.json` passthrough; otherwise an exports
map is synthesized from `manifest.source || manifest.main` plus the
passthrough, or from the passthrough alone. -/
def publishExports (declared : Option (List (String × ExportValue)))
    (source main : JSVal) : List (String × ExportValue) :=
  match declared with
  | some m => setKey m "./package.json" (ExportValue.str "./package.json")
  | none =>
    match truthyStr (jsOr source main) with
    | some s =>
      [(".", ExportValue.str s), ("./package.json", ExportValue.str "./package.json")]
    | none => [("./package.json", ExportValue.str "./package.json")]

theorem lookupEV_setKey (m : List (String × ExportValue)) (k : String) (v : ExportValue) :
    lookupEV (setKey m k v) k = some v := by
  induction m with
  | nil => simp [setKey, lookupEV, List.find?]
  | cons kv rest ih =>
    cases hb : (kv.1 == k) with
    | true => simp [setKey, hb, lookupEV, List.find?]
    | false =>
      simp only [setKey, hb, if_false, Bool.false_eq_true]
      simpa [lookupEV, List.find?, hb] using ih

/-- C9: the published manifest's exports map always maps `./package.json` to
`./package.json` — whether the input manifest declares an exports field (then
it is augmented, overriding any declared value for that key) or not (then an
exports map is synthesized containing it, together with `.` bound to
`source || main` when one of those is set). -/
theorem publishExports_packageJson (declared : Option (List (String × ExportValue)))
    (source main : JSVal) :
    lookupEV (publishExports declared source main) "./package.json"
        = some (ExportValue.str "./package.json") ∧
      (∀ s, truthyStr (jsOr source main) = some s →
        lookupEV (publishExports none source main) "." = some (ExportValue.str s)) := by
  constructor
  · cases declared with
    | some m => exact lookupEV_setKey m _ _
    | none =>
      cases h : truthyStr (jsOr source main) with
      | some s => simp only [publishExports, h]; rfl
      | none => simp only [publishExports, h]; rfl
  · intro s h
    simp only [publishExports, h]
    rfl

/-- Witness for `publishExports_packageJson`: with no declared exports and a
`source` field, the synthesized map binds `.` to the source path. -/
theorem publishExports_packageJson_witness :
    lookupEV (publishExports none (JSVal.str "./src/index.ts") JSVal.undefined) "."
      = some (ExportValue.str "./src/index.ts") :=
  (publishExports_packageJson none (JSVal.str "./src/index.ts") JSVal.undefined).2
    "./src/index.ts" (by decide)

/-! ### Node.js ESM wrapper generation (distilt.js lines 938-970) -/

/-- `exports.filter((name) => name[0] == '*')` (distilt.js line 956). -/
def starExports (exports : List String) : List String :=
  exports.filter (fun n => strStartsWith n "*")

/-- `exports.filter((name) => name[0] != '*')` (distilt.js line 961). -/
def namedExports (exports : List String) : List String :=
  exports.filter (fun n => !(strStartsWith n "*"))

/-- The synthesized default shim emitted when the CJS export list has no
`default` (distilt.js lines 948-953): bind the whole CJS module namespace and
re-export it as the default export. -/
def defaultShim (target : String) : String :=
  "import __$$ from " ++ quoteJson target ++ ";\n" ++ "export default __$$;\n"

/-- The named re-export clause (distilt.js lines 961-966). -/
def namedClause (target : String) (exports : List String) : String :=
  "export \x7b " ++ String.intercalate ", " (namedExports exports) ++ " \x7d from " ++
    quoteJson target ++ ";\n"

/-- The `.mjs` wrapper written next to a CJS entry chunk (distilt.js lines
940-970), from the statically parsed export names of the compiled CJS output:
the default shim when `default` is absent, one `export * from` line per
wildcard entry (`*`-prefixed names, specifier after the `*`), then the named
re-export clause when any non-wildcard name exists.  `target` is the
`./name(.dev)(.cjs|.js)` specifier of the CJS artifact. -/
def nodeEsmWrapper (target : String) (exports : List String) : String :=
  (if "default" ∈ exports then "" else defaultShim target) ++
    String.join ((starExports exports).map
      (fun n => "export * from " ++ quoteJson (strDrop n 1) ++ ";\n")) ++
    (if (namedExports exports).isEmpty then "" else namedClause target exports)

/-- C10: every generated Node.js ESM wrapper has a default export — when the
parsed CJS export list contains `default` it is re-exported inside the named
clause, and when it does not, the wrapper starts with the synthesized
`export default` shim over the whole CJS namespace. -/
theorem nodeEsmWrapper_default_export (target : String) (exports : List String) :
    ("default" ∈ exports →
      "default" ∈ namedExports exports ∧
        ∃ pre, nodeEsmWrapper target exports = pre ++ namedClause target exports) ∧
      ("default" ∉ exports →
        ∃ rest, nodeEsmWrapper target exports = defaultShim target ++ rest) := by
  constructor
  · intro h
    have hNamed : "default" ∈ namedExports exports :=
      List.mem_filter.mpr ⟨h, by decide⟩
    refine ⟨hNamed, ?_⟩
    have hne : (namedExports exports).isEmpty = false := by
      rcases hx : namedExports exports with _ | ⟨a, l⟩
      · rw [hx] at hNamed
        cases hNamed
      · rfl
    have hclause : (if (namedExports exports).isEmpty then ""
        else namedClause target exports) = namedClause target exports := by
      rw [hne]
      rfl
    refine ⟨(if "default" ∈ exports then "" else defaultShim target) ++
      String.join ((starExports exports).map
        (fun n => "export * from " ++ quoteJson (strDrop n 1) ++ ";\n")), ?_⟩
    unfold nodeEsmWrapper
    rw [hclause]
  · intro h
    refine ⟨String.join ((starExports exports).map
        (fun n => "export * from " ++ quoteJson (strDrop n 1) ++ ";\n")) ++
      (if (namedExports exports).isEmpty then "" else namedClause target exports), ?_⟩
    unfold nodeEsmWrapper
    rw [if_neg h]
    exact strApp_assoc _ _ _

/-- Witness for `nodeEsmWrapper_default_export`: with a `default` among the
parsed exports, `default` is carried by the named re-export clause. -/
theorem nodeEsmWrapper_default_export_witness :
    "default" ∈ namedExports ["toColorValue", "default"] :=
  ((nodeEsmWrapper_default_export "./core.cjs" ["toColorValue", "default"]).1
    (by decide)).1

end Distilt
